import Mathlib

/-!
A shallow embedding of the LS-8 emulator (`src/project/ls8/cpu.js` and
`src/project/ls8/ram.js`) and proofs about its behaviour.

Modelling conventions:
* JS `Number` values that the program uses as integers are modelled as `ℤ`.
* `this.reg` is a JS array indexed by numbers; it is modelled as a total map
  `ℤ → ℤ`.  The named properties `PC`, `IR`, `FL` that the source stores on
  the same array object are distinct (non-index) keys, so they are separate
  fields of the state.
* `this.ram.mem` inside the CPU model is a total map `ℤ → ℤ` (the constructor
  fills every in-range cell with `0`; the claims about the CPU never depend on
  reading a never-written out-of-range cell).  The stand-alone `RAM` module is
  additionally modelled exactly, with `Option ℤ` cells (`none` = JS
  `undefined`), for the claim about `RAM.write`/`RAM.read`.
* `console.error` and `console.log` output are collected in the `errors` and
  `output` lists (most recent first).
* `stopClock()` clears the driving interval so that no further cycles run;
  it is modelled by the `halted` flag, and `run` (the external driver that
  repeatedly invokes `tick`) stops as soon as `halted` is set.
-/

namespace LS8

/-- JS `ToInt32`: reduce a number to a signed 32-bit integer. -/
def toInt32 (n : ℤ) : ℤ := (n + 2 ^ 31) % 2 ^ 32 - 2 ^ 31

/-- JS `a & b` (both operands pass through `ToInt32`). -/
def jsAnd (a b : ℤ) : ℤ := Int.land (toInt32 a) (toInt32 b)

/-- JS `a | b`. -/
def jsOr (a b : ℤ) : ℤ := Int.lor (toInt32 a) (toInt32 b)

/-- JS `a ^ b`. -/
def jsXor (a b : ℤ) : ℤ := Int.xor (toInt32 a) (toInt32 b)

/-- JS `~a`. -/
def jsNot (a : ℤ) : ℤ := Int.lnot (toInt32 a)

/-- JS `a >> n` for a constant shift count: arithmetic shift of the
32-bit value. -/
def jsShr (a : ℤ) (n : ℕ) : ℤ := Int.shiftRight (toInt32 a) n

-- The instruction constants of cpu.js.

def HLT : ℤ := 0b00000001
def ADD : ℤ := 0b10110011
def AND : ℤ := 0b10110011
def CALL : ℤ := 0b01001000
def CMP : ℤ := 0b10100000
def DEC : ℤ := 0b01111001
def DIV : ℤ := 0b10101011
def INC : ℤ := 0b01111000
def MOD : ℤ := 0b10101100
def MUL : ℤ := 0b10101010
def NOT : ℤ := 0b01110000
def NOP : ℤ := 0b00000000
def LDI : ℤ := 0b10011001
def OR : ℤ := 0b10110001
def PRN : ℤ := 0b01000011
def PUSH : ℤ := 0b01001101
def POP : ℤ := 0b01001100
def RET : ℤ := 0b00001001
def SUB : ℤ := 0b10101001
def XOR : ℤ := 0b10110010

/-- `const SP = 0x07`, the stack-pointer register index. -/
def SP : ℤ := 0x07

def FL_EQ : ℕ := 0b00000001
def FL_GT : ℕ := 0b00000010
def FL_LT : ℕ := 0b00000100

/-- The mutable processor state. -/
structure State where
  regs : ℤ → ℤ
  pc : ℤ
  ir : ℤ
  fl : ℕ
  ram : ℤ → ℤ
  halted : Bool
  output : List String
  errors : List String

/-- Point update of the register file (`this.reg[i] = v`). -/
def writeReg (regs : ℤ → ℤ) (i v : ℤ) : ℤ → ℤ :=
  fun j => if j = i then v else regs j

/-- `this.ram.write(MAR, MDR)` as seen from the CPU model. -/
def writeMem (mem : ℤ → ℤ) (MAR MDR : ℤ) : ℤ → ℤ :=
  fun a => if a = MAR then MDR else mem a

/-- `setFlag(flag, value)`: set the flag bits when `value === true`,
otherwise clear them (`this.reg.FL & (~flag)`, which on the naturals is
`Nat.ldiff`). -/
def setFlag (s : State) (flag : ℕ) (value : Bool) : State :=
  if value then { s with fl := s.fl ||| flag }
  else { s with fl := s.fl.ldiff flag }

/-- The message printed by `console.error` when DIV or MOD sees a zero
divisor. -/
def divByZeroMsg : String := "2nd param could not be 0"

/-- `alu(op, regA, regB)`.  The unary operations never read `regB` (the
source even calls them without that argument).  JS `/` is floating-point
division; no claim exercises the nonzero-divisor branch of DIV, and it is
modelled with truncating integer division.  JS `%` truncates toward zero
(remainder takes the dividend's sign), which is `Int.tmod`. -/
def alu (op : String) (s : State) (regA regB : ℤ) : State :=
  match op with
  | "ADD" => { s with regs := writeReg s.regs regA (s.regs regA + s.regs regB) }
  | "AND" => { s with regs := writeReg s.regs regA (jsAnd (s.regs regA) (s.regs regB)) }
  | "OR" => { s with regs := writeReg s.regs regA (jsOr (s.regs regA) (s.regs regB)) }
  | "NOT" => { s with regs := writeReg s.regs regA (jsNot (s.regs regA)) }
  | "XOR" => { s with regs := writeReg s.regs regA (jsXor (s.regs regA) (s.regs regB)) }
  | "DEC" => { s with regs := writeReg s.regs regA (s.regs regA - 1) }
  | "DIV" =>
      if s.regs regB = 0 then
        { s with errors := divByZeroMsg :: s.errors, halted := true }
      else
        { s with regs := writeReg s.regs regA (Int.tdiv (s.regs regA) (s.regs regB)) }
  | "INC" => { s with regs := writeReg s.regs regA (s.regs regA + 1) }
  | "MOD" =>
      if s.regs regB = 0 then
        { s with errors := divByZeroMsg :: s.errors, halted := true }
      else
        { s with regs := writeReg s.regs regA (Int.tmod (s.regs regA) (s.regs regB)) }
  | "MUL" => { s with regs := writeReg s.regs regA (s.regs regA * s.regs regB) }
  | "SUB" => { s with regs := writeReg s.regs regA (s.regs regA - s.regs regB) }
  | "CMP" => setFlag s FL_EQ (s.regs regA == s.regs regB)
  | _ => s

/-- An instruction handler: receives the state and the two operand bytes,
returns the new state and the optional explicit next PC (the JS return
value; `none` = `undefined`). -/
abbrev Handler := State → ℤ → ℤ → State × Option ℤ

/-- `pushHelper(value)`: decrement SP, then write at the new SP. -/
def pushHelper (s : State) (value : ℤ) : State :=
  let s1 := { s with regs := writeReg s.regs SP (s.regs SP - 1) }
  { s1 with ram := writeMem s1.ram (s1.regs SP) value }

/-- `popHelper()`: read RAM at the current SP, then move SP (the source
decrements it), returning the value read. -/
def popHelper (s : State) : ℤ × State :=
  let value := s.ram (s.regs SP)
  (value, { s with regs := writeReg s.regs SP (s.regs SP - 1) })

def CPU.HLT : Handler := fun s _ _ => ({ s with halted := true }, none)

def CPU.ADD : Handler := fun s regA regB => (alu "ADD" s regA regB, none)

def CPU.AND : Handler := fun s regA regB => (alu "AND" s regA regB, none)

def CPU.OR : Handler := fun s regA regB => (alu "OR" s regA regB, none)

def CPU.NOT : Handler := fun s regA _ => (alu "NOT" s regA 0, none)

def CPU.XOR : Handler := fun s regA regB => (alu "XOR" s regA regB, none)

def CPU.DEC : Handler := fun s regA _ => (alu "DEC" s regA 0, none)

def CPU.DIV : Handler := fun s regA regB => (alu "DIV" s regA regB, none)

def CPU.INC : Handler := fun s regA _ => (alu "INC" s regA 0, none)

def CPU.MOD : Handler := fun s regA regB => (alu "MOD" s regA regB, none)

def CPU.MUL : Handler := fun s regA regB => (alu "MUL" s regA regB, none)

def CPU.NOP : Handler := fun s _ _ => (s, none)

def CPU.LDI : Handler := fun s regNum value =>
  ({ s with regs := writeReg s.regs regNum value }, none)

def CPU.PRN : Handler := fun s regA _ =>
  ({ s with output := toString (s.regs regA) :: s.output }, none)

def CPU.SUB : Handler := fun s regA regB => (alu "SUB" s regA regB, none)

def CPU.CALL : Handler := fun s regNum _ =>
  let s1 := pushHelper s (s.pc + 2)
  (s1, some (s1.regs regNum))

def CPU.RET : Handler := fun s _ _ =>
  let p := popHelper s
  (p.2, some p.1)

def CPU.POP : Handler := fun s regNum _ =>
  let p := popHelper s
  ({ p.2 with regs := writeReg p.2.regs regNum p.1 }, none)

def CPU.PUSH : Handler := fun s regNum _ =>
  (pushHelper s (s.regs regNum), none)

def CPU.CMP : Handler := fun s regA regB => (alu "CMP" s regA regB, none)

/-- The `bt[...] = this....` assignments of `setupBranchTable`, in source
order.  Note that `ADD` and `AND` are the same byte, so the later `AND`
assignment overwrites the earlier `ADD` one, exactly as in JS. -/
def btAssignments : List (ℤ × Handler) :=
  [(HLT, CPU.HLT), (ADD, CPU.ADD), (AND, CPU.AND), (CALL, CPU.CALL),
   (CMP, CPU.CMP), (DEC, CPU.DEC), (DIV, CPU.DIV), (INC, CPU.INC),
   (MOD, CPU.MOD), (MUL, CPU.MUL), (NOT, CPU.NOT), (NOP, CPU.NOP),
   (LDI, CPU.LDI), (OR, CPU.OR), (PRN, CPU.PRN), (PUSH, CPU.PUSH),
   (POP, CPU.POP), (RET, CPU.RET), (SUB, CPU.SUB), (XOR, CPU.XOR)]

/-- The branch table built by `setupBranchTable`: each assignment
overwrites any earlier entry with the same key; lookup of an absent key
gives `none` (JS `undefined`). -/
def setupBranchTable : ℤ → Option Handler :=
  btAssignments.foldl (fun bt kv => fun op => if op = kv.1 then some kv.2 else bt op)
    (fun _ => none)

/-- `(this.reg.IR >> 6) & 0b11`, the operand count encoded in the opcode's
top two bits. -/
def operandCount (ir : ℤ) : ℤ := jsAnd (jsShr ir 6) 0b11

/-- The PC-advance step at the end of `tick()`: if the handler returned
`undefined`, add `operandCount + 1` to PC; otherwise set PC to the
returned value. -/
def advance : State × Option ℤ → State
  | (s1, none) => { s1 with pc := s1.pc + operandCount s1.ir + 1 }
  | (s1, some nextPC) => { s1 with pc := nextPC }

/-- The decode/execute part of `tick()`: with no handler for the fetched
IR, report the unknown opcode and stop the clock; otherwise read the two
operand bytes unconditionally, call the handler, and advance PC. -/
def execute (s0 : State) : Option Handler → State
  | none =>
      { s0 with errors := ("Unknown opcode" ++ toString s0.ir) :: s0.errors,
                halted := true }
  | some handler =>
      advance (handler s0 (s0.ram (s0.pc + 1)) (s0.ram (s0.pc + 2)))

/-- `tick()`: one fetch-decode-execute cycle. -/
def tick (s : State) : State :=
  let s0 := { s with ir := s.ram s.pc }
  execute s0 (setupBranchTable s0.ir)

/-- The external driver (`startClock`): keep invoking `tick` while the
clock has not been stopped.  `fuel` bounds the number of cycles. -/
def run : ℕ → State → State
  | 0, s => s
  | n + 1, s => if s.halted then s else run n (tick s)

/-- The `RAM` module of ram.js, modelled exactly: `new Array(size).fill(0)`
initialises indices `0 .. size-1` with `0`; any other key reads as JS
`undefined` (`none`) until written. -/
structure RAM where
  size : ℕ
  mem : ℤ → Option ℤ

def RAM.new (size : ℕ) : RAM :=
  { size := size, mem := fun a => if 0 ≤ a ∧ a < (size : ℤ) then some 0 else none }

/-- `write(MAR, MDR)`: store the value at the address. -/
def RAM.write (r : RAM) (MAR MDR : ℤ) : RAM :=
  { r with mem := fun a => if a = MAR then some MDR else r.mem a }

/-- `read(MAR)`: return the value stored at the address. -/
def RAM.read (r : RAM) (MAR : ℤ) : Option ℤ :=
  r.mem MAR

-- General lemmas about the model, shared by the claim proofs below.

/-- Once the clock is stopped, the driver performs no further cycle. -/
lemma run_halted (n : ℕ) (s : State) (h : s.halted = true) : run n s = s := by
  cases n with
  | zero => rfl
  | succ n => simp [run, h]

/-- No ALU operation moves the program counter. -/
lemma alu_pc (op : String) (s : State) (a b : ℤ) : (alu op s a b).pc = s.pc := by
  unfold alu setFlag
  repeat' split
  all_goals rfl

/-- No ALU operation touches the instruction register. -/
lemma alu_ir (op : String) (s : State) (a b : ℤ) : (alu op s a b).ir = s.ir := by
  unfold alu setFlag
  repeat' split
  all_goals rfl

/-- A state used for concrete evaluations: SP holds its initial value
`0xF4`, every other register holds `5`, RAM is all zero. -/
def demoState : State :=
  { regs := fun i => if i = 7 then 0xf4 else 5
  , pc := 0, ir := 0, fl := 0
  , ram := fun _ => 0
  , halted := false, output := [], errors := [] }

/-- A state whose registers are all zero, with SP at `0xF4`. -/
def zState : State :=
  { regs := fun i => if i = 7 then 0xf4 else 0
  , pc := 0, ir := 0, fl := 0
  , ram := fun _ => 0
  , halted := false, output := [], errors := [] }

/-- C1: PUSH then POP on the same register should leave both the register
and SP unchanged.  On the code, the register is indeed restored, but
`popHelper` decrements SP instead of incrementing it, so from `SP = 0xF4`
the round trip ends with `SP = 0xF2`, not `0xF4`. -/
theorem push_pop_roundtrip_sp_drifts :
    demoState.regs SP = 0xf4 ∧
    (CPU.POP (CPU.PUSH demoState 0 0).1 0 0).1.regs 0 = demoState.regs 0 ∧
    (CPU.POP (CPU.PUSH demoState 0 0).1 0 0).1.regs SP = 0xf2 := by
  decide

/-- C2: POP stores into the target register the value read from RAM at the
pre-operation SP, but then moves SP to `SP - 1` (the code decrements where
the claim requires `SP + 1`): from `SP = 0xF4` it ends at `0xF3`. -/
theorem pop_reads_then_decrements_sp :
    demoState.regs SP = 0xf4 ∧
    (CPU.POP demoState 0 0).1.regs 0 = demoState.ram (demoState.regs SP) ∧
    (CPU.POP demoState 0 0).1.regs SP = 0xf3 := by
  decide

/-- C3: DIV and MOD with a zero divisor leave the dividend register
untouched, report the division-by-zero failure, and stop the clock, after
which no further cycle executes. -/
theorem div_mod_by_zero_halts (s : State) (a b : ℤ) (hz : s.regs b = 0) :
    ((alu "DIV" s a b).regs a = s.regs a ∧
     (alu "DIV" s a b).halted = true ∧
     (alu "DIV" s a b).errors = divByZeroMsg :: s.errors ∧
     ∀ n, run n (alu "DIV" s a b) = alu "DIV" s a b) ∧
    ((alu "MOD" s a b).regs a = s.regs a ∧
     (alu "MOD" s a b).halted = true ∧
     (alu "MOD" s a b).errors = divByZeroMsg :: s.errors ∧
     ∀ n, run n (alu "MOD" s a b) = alu "MOD" s a b) := by
  have hd : alu "DIV" s a b
      = { s with errors := divByZeroMsg :: s.errors, halted := true } := by
    simp [alu, hz]
  have hm : alu "MOD" s a b
      = { s with errors := divByZeroMsg :: s.errors, halted := true } := by
    simp [alu, hz]
  rw [hd, hm]
  exact ⟨⟨rfl, rfl, rfl, fun n => run_halted n _ rfl⟩,
         ⟨rfl, rfl, rfl, fun n => run_halted n _ rfl⟩⟩

/-- Witness for C3 at a concrete input: register 2 of `zState` holds 0. -/
theorem div_mod_by_zero_halts_witness :
    zState.regs 2 = 0 ∧
    (((alu "DIV" zState 1 2).regs 1 = zState.regs 1 ∧
      (alu "DIV" zState 1 2).halted = true ∧
      (alu "DIV" zState 1 2).errors = divByZeroMsg :: zState.errors ∧
      ∀ n, run n (alu "DIV" zState 1 2) = alu "DIV" zState 1 2) ∧
     ((alu "MOD" zState 1 2).regs 1 = zState.regs 1 ∧
      (alu "MOD" zState 1 2).halted = true ∧
      (alu "MOD" zState 1 2).errors = divByZeroMsg :: zState.errors ∧
      ∀ n, run n (alu "MOD" zState 1 2) = alu "MOD" zState 1 2)) :=
  ⟨by decide, div_mod_by_zero_halts zState 1 2 (by decide)⟩

/-- C5: CMP sets the Equal bit (bit 0 of FL) exactly when the two operand
registers hold equal values. -/
theorem cmp_sets_equal_flag_iff (s : State) (a b : ℤ) :
    ((alu "CMP" s a b).fl.testBit 0 = true) ↔ s.regs a = s.regs b := by
  by_cases h : s.regs a = s.regs b
  · simp [alu, setFlag, FL_EQ, h, Nat.testBit_lor]
  · have hcmp : (alu "CMP" s a b).fl = s.fl.ldiff FL_EQ := by
      simp [alu, setFlag, h]
    rw [hcmp, Nat.testBit_ldiff]
    simp [FL_EQ, h]

/-- Bit `i` of the constant `1` is clear for every `i ≠ 0`. -/
lemma one_testBit_eq_false (i : ℕ) (hi : i ≠ 0) : Nat.testBit 1 i = false := by
  cases i with
  | zero => exact absurd rfl hi
  | succ n => simp [Nat.testBit_succ]

/-- C9: CMP changes at most bit 0 of the flags register: every other bit
keeps its previous value, whatever FL held before. -/
theorem cmp_frames_other_flag_bits (s : State) (a b : ℤ) (i : ℕ) (hi : i ≠ 0) :
    (alu "CMP" s a b).fl.testBit i = s.fl.testBit i := by
  by_cases h : s.regs a = s.regs b <;>
    simp [alu, setFlag, FL_EQ, h, Nat.testBit_lor, Nat.testBit_ldiff,
      one_testBit_eq_false i hi]

/-- Witness for C9 at a concrete input: bit 1 (Greater-Than) survives a
CMP of two equal registers, from a state where it was set. -/
theorem cmp_frames_other_flag_bits_witness :
    (1 : ℕ) ≠ 0 ∧
    (alu "CMP" { zState with fl := 2 } 0 1).fl.testBit 1
      = ({ zState with fl := 2 } : State).fl.testBit 1 :=
  ⟨by decide, cmp_frames_other_flag_bits { zState with fl := 2 } 0 1 1 (by decide)⟩

/-- C10: reading RAM at an in-range address right after writing it returns
the written value, and every other address reads as before the write. -/
theorem ram_write_read (r : RAM) (a v b : ℤ)
    (_ha0 : 0 ≤ a) (_ha1 : a < (r.size : ℤ)) (hb : b ≠ a) :
    (r.write a v).read a = some v ∧ (r.write a v).read b = r.read b := by
  constructor
  · simp [RAM.write, RAM.read]
  · simp [RAM.write, RAM.read, hb]

/-- Applying a register-file update. -/
lemma writeReg_apply (r : ℤ → ℤ) (i v j : ℤ) :
    writeReg r i v j = if j = i then v else r j := rfl

/-- Applying a memory update. -/
lemma writeMem_apply (m : ℤ → ℤ) (MAR MDR a : ℤ) :
    writeMem m MAR MDR a = if a = MAR then MDR else m a := rfl

/-- The branch table written out: the fold of the assignment list makes
the later assignments take precedence, so the test for the last
assignment (`XOR`) is outermost and `AND` is tested before `ADD` (which
shares its key and is therefore shadowed). -/
lemma setupBranchTable_eq (op : ℤ) : setupBranchTable op =
    (if op = XOR then some CPU.XOR
     else if op = SUB then some CPU.SUB
     else if op = RET then some CPU.RET
     else if op = POP then some CPU.POP
     else if op = PUSH then some CPU.PUSH
     else if op = PRN then some CPU.PRN
     else if op = OR then some CPU.OR
     else if op = LDI then some CPU.LDI
     else if op = NOP then some CPU.NOP
     else if op = NOT then some CPU.NOT
     else if op = MUL then some CPU.MUL
     else if op = MOD then some CPU.MOD
     else if op = INC then some CPU.INC
     else if op = DIV then some CPU.DIV
     else if op = DEC then some CPU.DEC
     else if op = CMP then some CPU.CMP
     else if op = CALL then some CPU.CALL
     else if op = AND then some CPU.AND
     else if op = ADD then some CPU.ADD
     else if op = HLT then some CPU.HLT
     else none) := rfl

/-- Unfolding `tick` once. -/
lemma tick_eq (s : State) :
    tick s = execute { s with ir := s.ram s.pc } (setupBranchTable (s.ram s.pc)) := rfl

/-- `advance` when the handler returned no explicit next PC. -/
lemma advance_none (r : State × Option ℤ) (h : r.2 = none) :
    advance r = { r.1 with pc := r.1.pc + operandCount r.1.ir + 1 } := by
  obtain ⟨s1, r2⟩ := r
  cases r2 with
  | none => rfl
  | some p => exact absurd h (by simp)

/-- A `tick` that fetches a CALL byte: SP is decremented, `PC + 2` is
written at the new SP, and PC becomes the (post-push) content of the
operand register. -/
lemma tick_CALL (s : State) (h : s.ram s.pc = CALL) :
    tick s = { s with
      ir := s.ram s.pc,
      regs := writeReg s.regs SP (s.regs SP - 1),
      ram := writeMem s.ram (s.regs SP - 1) (s.pc + 2),
      pc := writeReg s.regs SP (s.regs SP - 1) (s.ram (s.pc + 1)) } := by
  have hbt : setupBranchTable (s.ram s.pc) = some CPU.CALL := by
    rw [h]; exact rfl
  rw [tick_eq, hbt]
  simp [execute, CPU.CALL, pushHelper, advance, writeReg_apply]

/-- A `tick` that fetches a RET byte: PC becomes the value read from RAM
at the current SP, and SP moves by one. -/
lemma tick_RET (s : State) (h : s.ram s.pc = RET) :
    tick s = { s with
      ir := s.ram s.pc,
      regs := writeReg s.regs SP (s.regs SP - 1),
      pc := s.ram (s.regs SP) } := by
  have hbt : setupBranchTable (s.ram s.pc) = some CPU.RET := by
    rw [h]; exact rfl
  rw [tick_eq, hbt]
  simp [execute, CPU.RET, popHelper, advance]

/-- C6: a CALL tick pushes `PC + 2` at `SP - 1`, leaves SP decremented,
and sets PC to the value the operand register then holds; a RET tick
executed next (no intervening stack operation) returns to
`PC_before_call + 2`. -/
theorem call_then_ret_resumes_after_call (s : State)
    (h1 : s.ram s.pc = CALL)
    (h2 : (tick s).ram ((tick s).pc) = RET) :
    (tick s).ram (s.regs SP - 1) = s.pc + 2 ∧
    (tick s).regs SP = s.regs SP - 1 ∧
    (tick s).pc = (tick s).regs (s.ram (s.pc + 1)) ∧
    (tick (tick s)).pc = s.pc + 2 := by
  have ht := tick_CALL s h1
  have c1 : (tick s).ram (s.regs SP - 1) = s.pc + 2 := by
    rw [ht]; simp [writeMem_apply]
  have c2 : (tick s).regs SP = s.regs SP - 1 := by
    rw [ht]; simp [writeReg_apply]
  have c3 : (tick s).pc = (tick s).regs (s.ram (s.pc + 1)) := by
    rw [ht]
  have c4 : (tick (tick s)).pc = s.pc + 2 := by
    rw [tick_RET (tick s) h2, c2, c1]
  exact ⟨c1, c2, c3, c4⟩

/-- Witness state for C6: `CALL R0` at address 0 with `R0 = 10`, and a
RET byte at address 10. -/
def wState6 : State :=
  { regs := fun i => if i = 7 then 0xf4 else 10
  , pc := 0, ir := 0, fl := 0
  , ram := fun a => if a = 0 then 0x48 else if a = 1 then 0 else if a = 10 then 9 else 0
  , halted := false, output := [], errors := [] }

/-- Witness for C6 on the concrete program of `wState6`. -/
theorem call_then_ret_resumes_after_call_witness :
    (wState6.ram wState6.pc = CALL ∧
     (tick wState6).ram ((tick wState6).pc) = RET) ∧
    ((tick wState6).ram (wState6.regs SP - 1) = wState6.pc + 2 ∧
     (tick wState6).regs SP = wState6.regs SP - 1 ∧
     (tick wState6).pc = (tick wState6).regs (wState6.ram (wState6.pc + 1)) ∧
     (tick (tick wState6)).pc = wState6.pc + 2) :=
  ⟨⟨by decide, by decide⟩,
   call_then_ret_resumes_after_call wState6 (by decide) (by decide)⟩

/-- C7: fetching a byte with no branch-table entry reports the offending
opcode on the error channel, stops the clock and leaves every other part
of the state (PC included) untouched; no further cycle runs. -/
theorem unknown_opcode_halts (s : State)
    (h : setupBranchTable (s.ram s.pc) = none) :
    (tick s).pc = s.pc ∧ (tick s).halted = true ∧
    (tick s).errors = ("Unknown opcode" ++ toString (s.ram s.pc)) :: s.errors ∧
    (tick s).regs = s.regs ∧ (tick s).ram = s.ram ∧
    (tick s).fl = s.fl ∧ (tick s).output = s.output ∧
    ∀ n, run n (tick s) = tick s := by
  have ht : tick s = { s with
      ir := s.ram s.pc,
      errors := ("Unknown opcode" ++ toString (s.ram s.pc)) :: s.errors,
      halted := true } := by
    rw [tick_eq, h]
    simp [execute]
  rw [ht]
  exact ⟨rfl, rfl, rfl, rfl, rfl, rfl, rfl, fun n => run_halted n _ rfl⟩

/-- Witness state for C7: every RAM byte is `0xFF`, which has no
branch-table entry. -/
def wState7 : State :=
  { regs := fun i => if i = 7 then 0xf4 else 0
  , pc := 0, ir := 0, fl := 0
  , ram := fun _ => 0xff
  , halted := false, output := [], errors := [] }

/-- Witness for C7 at the concrete opcode `0xFF`. -/
theorem unknown_opcode_halts_witness :
    setupBranchTable (wState7.ram wState7.pc) = none ∧
    ((tick wState7).pc = wState7.pc ∧ (tick wState7).halted = true ∧
     (tick wState7).errors
       = ("Unknown opcode" ++ toString (wState7.ram wState7.pc)) :: wState7.errors ∧
     (tick wState7).regs = wState7.regs ∧ (tick wState7).ram = wState7.ram ∧
     (tick wState7).fl = wState7.fl ∧ (tick wState7).output = wState7.output ∧
     ∀ n, run n (tick wState7) = tick wState7) :=
  ⟨rfl, unknown_opcode_halts wState7 rfl⟩

/-- A state on which the ADD handler is distinguishable from every other
handler by the single observation `(h tState 0 1).1.regs 0`. -/
def tState : State :=
  { regs := fun i => if i = 7 then 4 else 3
  , pc := 100, ir := 0, fl := 0
  , ram := fun _ => 7
  , halted := false, output := [], errors := [] }

/-- C8, counterexample: the branch-table entry for `0xB3` is not the ADD
handler (the later `bt[AND]` assignment overwrote it). -/
theorem opcode_b3_entry_is_not_add : ¬ (setupBranchTable 0xB3 = some CPU.ADD) := by
  intro hc
  rw [show setupBranchTable 0xB3 = some CPU.AND from rfl] at hc
  injection hc with hc
  exact absurd (congrArg (fun f => (f tState 0 1).1.regs 0) hc) (by decide)

/-- C8, amended: the single branch-table entry for `0xB3` maps to the AND
handler (the later `bt[AND] = this.AND` assignment overwrites
`bt[ADD] = this.ADD`, which uses the identical key), and no opcode at all
dispatches to the ADD handler. -/
theorem opcode_b3_entry_is_and :
    setupBranchTable 0xB3 = some CPU.AND ∧
    ∀ op : ℤ, setupBranchTable op ≠ some CPU.ADD := by
  refine ⟨rfl, ?_⟩
  intro op hc
  rw [setupBranchTable_eq] at hc
  by_cases h1 : op = XOR
  · rw [if_pos h1] at hc
    injection hc with hc
    exact absurd (congrArg (fun f => (f tState 0 1).1.regs 0) hc) (by decide)
  rw [if_neg h1] at hc
  by_cases h2 : op = SUB
  · rw [if_pos h2] at hc
    injection hc with hc
    exact absurd (congrArg (fun f => (f tState 0 1).1.regs 0) hc) (by decide)
  rw [if_neg h2] at hc
  by_cases h3 : op = RET
  · rw [if_pos h3] at hc
    injection hc with hc
    exact absurd (congrArg (fun f => (f tState 0 1).1.regs 0) hc) (by decide)
  rw [if_neg h3] at hc
  by_cases h4 : op = POP
  · rw [if_pos h4] at hc
    injection hc with hc
    exact absurd (congrArg (fun f => (f tState 0 1).1.regs 0) hc) (by decide)
  rw [if_neg h4] at hc
  by_cases h5 : op = PUSH
  · rw [if_pos h5] at hc
    injection hc with hc
    exact absurd (congrArg (fun f => (f tState 0 1).1.regs 0) hc) (by decide)
  rw [if_neg h5] at hc
  by_cases h6 : op = PRN
  · rw [if_pos h6] at hc
    injection hc with hc
    exact absurd (congrArg (fun f => (f tState 0 1).1.regs 0) hc) (by decide)
  rw [if_neg h6] at hc
  by_cases h7 : op = OR
  · rw [if_pos h7] at hc
    injection hc with hc
    exact absurd (congrArg (fun f => (f tState 0 1).1.regs 0) hc) (by decide)
  rw [if_neg h7] at hc
  by_cases h8 : op = LDI
  · rw [if_pos h8] at hc
    injection hc with hc
    exact absurd (congrArg (fun f => (f tState 0 1).1.regs 0) hc) (by decide)
  rw [if_neg h8] at hc
  by_cases h9 : op = NOP
  · rw [if_pos h9] at hc
    injection hc with hc
    exact absurd (congrArg (fun f => (f tState 0 1).1.regs 0) hc) (by decide)
  rw [if_neg h9] at hc
  by_cases h10 : op = NOT
  · rw [if_pos h10] at hc
    injection hc with hc
    exact absurd (congrArg (fun f => (f tState 0 1).1.regs 0) hc) (by decide)
  rw [if_neg h10] at hc
  by_cases h11 : op = MUL
  · rw [if_pos h11] at hc
    injection hc with hc
    exact absurd (congrArg (fun f => (f tState 0 1).1.regs 0) hc) (by decide)
  rw [if_neg h11] at hc
  by_cases h12 : op = MOD
  · rw [if_pos h12] at hc
    injection hc with hc
    exact absurd (congrArg (fun f => (f tState 0 1).1.regs 0) hc) (by decide)
  rw [if_neg h12] at hc
  by_cases h13 : op = INC
  · rw [if_pos h13] at hc
    injection hc with hc
    exact absurd (congrArg (fun f => (f tState 0 1).1.regs 0) hc) (by decide)
  rw [if_neg h13] at hc
  by_cases h14 : op = DIV
  · rw [if_pos h14] at hc
    injection hc with hc
    exact absurd (congrArg (fun f => (f tState 0 1).1.regs 0) hc) (by decide)
  rw [if_neg h14] at hc
  by_cases h15 : op = DEC
  · rw [if_pos h15] at hc
    injection hc with hc
    exact absurd (congrArg (fun f => (f tState 0 1).1.regs 0) hc) (by decide)
  rw [if_neg h15] at hc
  by_cases h16 : op = CMP
  · rw [if_pos h16] at hc
    injection hc with hc
    exact absurd (congrArg (fun f => (f tState 0 1).1.regs 0) hc) (by decide)
  rw [if_neg h16] at hc
  by_cases h17 : op = CALL
  · rw [if_pos h17] at hc
    injection hc with hc
    exact absurd (congrArg (fun f => (f tState 0 1).1.regs 0) hc) (by decide)
  rw [if_neg h17] at hc
  by_cases h18 : op = AND
  · rw [if_pos h18] at hc
    injection hc with hc
    exact absurd (congrArg (fun f => (f tState 0 1).1.regs 0) hc) (by decide)
  rw [if_neg h18] at hc
  by_cases h19 : op = ADD
  · exact absurd (h19.trans (show ADD = AND from rfl)) h18
  rw [if_neg h19] at hc
  by_cases h20 : op = HLT
  · rw [if_pos h20] at hc
    injection hc with hc
    exact absurd (congrArg (fun f => (f tState 0 1).1.regs 0) hc) (by decide)
  rw [if_neg h20] at hc
  exact Option.noConfusion hc

/-- Every handler a branch-table lookup can return. -/
lemma bt_cases (op : ℤ) (h : Handler) (hbt : setupBranchTable op = some h) :
    h = CPU.HLT ∨ h = CPU.ADD ∨ h = CPU.AND ∨ h = CPU.CALL ∨ h = CPU.CMP ∨
    h = CPU.DEC ∨ h = CPU.DIV ∨ h = CPU.INC ∨ h = CPU.MOD ∨ h = CPU.MUL ∨
    h = CPU.NOT ∨ h = CPU.NOP ∨ h = CPU.LDI ∨ h = CPU.OR ∨ h = CPU.PRN ∨
    h = CPU.PUSH ∨ h = CPU.POP ∨ h = CPU.RET ∨ h = CPU.SUB ∨ h = CPU.XOR := by
  rw [setupBranchTable_eq] at hbt
  by_cases h1 : op = XOR
  · rw [if_pos h1] at hbt
    injection hbt with hbt
    subst hbt
    simp only [eq_self_iff_true, true_or, or_true]
  rw [if_neg h1] at hbt
  by_cases h2 : op = SUB
  · rw [if_pos h2] at hbt
    injection hbt with hbt
    subst hbt
    simp only [eq_self_iff_true, true_or, or_true]
  rw [if_neg h2] at hbt
  by_cases h3 : op = RET
  · rw [if_pos h3] at hbt
    injection hbt with hbt
    subst hbt
    simp only [eq_self_iff_true, true_or, or_true]
  rw [if_neg h3] at hbt
  by_cases h4 : op = POP
  · rw [if_pos h4] at hbt
    injection hbt with hbt
    subst hbt
    simp only [eq_self_iff_true, true_or, or_true]
  rw [if_neg h4] at hbt
  by_cases h5 : op = PUSH
  · rw [if_pos h5] at hbt
    injection hbt with hbt
    subst hbt
    simp only [eq_self_iff_true, true_or, or_true]
  rw [if_neg h5] at hbt
  by_cases h6 : op = PRN
  · rw [if_pos h6] at hbt
    injection hbt with hbt
    subst hbt
    simp only [eq_self_iff_true, true_or, or_true]
  rw [if_neg h6] at hbt
  by_cases h7 : op = OR
  · rw [if_pos h7] at hbt
    injection hbt with hbt
    subst hbt
    simp only [eq_self_iff_true, true_or, or_true]
  rw [if_neg h7] at hbt
  by_cases h8 : op = LDI
  · rw [if_pos h8] at hbt
    injection hbt with hbt
    subst hbt
    simp only [eq_self_iff_true, true_or, or_true]
  rw [if_neg h8] at hbt
  by_cases h9 : op = NOP
  · rw [if_pos h9] at hbt
    injection hbt with hbt
    subst hbt
    simp only [eq_self_iff_true, true_or, or_true]
  rw [if_neg h9] at hbt
  by_cases h10 : op = NOT
  · rw [if_pos h10] at hbt
    injection hbt with hbt
    subst hbt
    simp only [eq_self_iff_true, true_or, or_true]
  rw [if_neg h10] at hbt
  by_cases h11 : op = MUL
  · rw [if_pos h11] at hbt
    injection hbt with hbt
    subst hbt
    simp only [eq_self_iff_true, true_or, or_true]
  rw [if_neg h11] at hbt
  by_cases h12 : op = MOD
  · rw [if_pos h12] at hbt
    injection hbt with hbt
    subst hbt
    simp only [eq_self_iff_true, true_or, or_true]
  rw [if_neg h12] at hbt
  by_cases h13 : op = INC
  · rw [if_pos h13] at hbt
    injection hbt with hbt
    subst hbt
    simp only [eq_self_iff_true, true_or, or_true]
  rw [if_neg h13] at hbt
  by_cases h14 : op = DIV
  · rw [if_pos h14] at hbt
    injection hbt with hbt
    subst hbt
    simp only [eq_self_iff_true, true_or, or_true]
  rw [if_neg h14] at hbt
  by_cases h15 : op = DEC
  · rw [if_pos h15] at hbt
    injection hbt with hbt
    subst hbt
    simp only [eq_self_iff_true, true_or, or_true]
  rw [if_neg h15] at hbt
  by_cases h16 : op = CMP
  · rw [if_pos h16] at hbt
    injection hbt with hbt
    subst hbt
    simp only [eq_self_iff_true, true_or, or_true]
  rw [if_neg h16] at hbt
  by_cases h17 : op = CALL
  · rw [if_pos h17] at hbt
    injection hbt with hbt
    subst hbt
    simp only [eq_self_iff_true, true_or, or_true]
  rw [if_neg h17] at hbt
  by_cases h18 : op = AND
  · rw [if_pos h18] at hbt
    injection hbt with hbt
    subst hbt
    simp only [eq_self_iff_true, true_or, or_true]
  rw [if_neg h18] at hbt
  by_cases h19 : op = ADD
  · rw [if_pos h19] at hbt
    injection hbt with hbt
    subst hbt
    simp only [eq_self_iff_true, true_or, or_true]
  rw [if_neg h19] at hbt
  by_cases h20 : op = HLT
  · rw [if_pos h20] at hbt
    injection hbt with hbt
    subst hbt
    simp only [eq_self_iff_true, true_or, or_true]
  rw [if_neg h20] at hbt
  exact Option.noConfusion hbt

/-- C4: when the fetched opcode has a branch-table entry and its handler
returns no explicit next PC, the tick advances PC by exactly
`operandCount + 1` from its pre-fetch value. -/
theorem default_pc_advance (s : State) (h : Handler)
    (hbt : setupBranchTable (s.ram s.pc) = some h)
    (hnone : (h { s with ir := s.ram s.pc }
        (s.ram (s.pc + 1)) (s.ram (s.pc + 2))).2 = none) :
    (tick s).pc = s.pc + operandCount (s.ram s.pc) + 1 := by
  have hc := bt_cases _ _ hbt
  rw [tick_eq, hbt]
  rcases hc with
    rfl|rfl|rfl|rfl|rfl|rfl|rfl|rfl|rfl|rfl|rfl|rfl|rfl|rfl|rfl|rfl|rfl|rfl|rfl|rfl
  all_goals
    first
      | simp [CPU.CALL, CPU.RET, pushHelper, popHelper] at hnone
      | (simp only [execute]
         rw [advance_none _ hnone]
         simp [CPU.HLT, CPU.ADD, CPU.AND, CPU.OR, CPU.NOT, CPU.XOR, CPU.DEC,
               CPU.DIV, CPU.INC, CPU.MOD, CPU.MUL, CPU.NOP, CPU.LDI, CPU.PRN,
               CPU.SUB, CPU.PUSH, CPU.POP, CPU.CMP, pushHelper, popHelper,
               alu_pc, alu_ir])

/-- Witness state for C4: an `LDI R3, 42` instruction at address 0. -/
def wState4 : State :=
  { regs := fun i => if i = 7 then 0xf4 else 0
  , pc := 0, ir := 0, fl := 0
  , ram := fun a => if a = 0 then LDI else if a = 1 then 3 else if a = 2 then 42 else 0
  , halted := false, output := [], errors := [] }

/-- Witness for C4: executing the LDI of `wState4` advances PC by
`operandCount + 1 = 3`. -/
theorem default_pc_advance_witness :
    setupBranchTable (wState4.ram wState4.pc) = some CPU.LDI ∧
    (CPU.LDI { wState4 with ir := wState4.ram wState4.pc }
        (wState4.ram (wState4.pc + 1)) (wState4.ram (wState4.pc + 2))).2 = none ∧
    (tick wState4).pc = wState4.pc + operandCount (wState4.ram wState4.pc) + 1 :=
  ⟨rfl, rfl, default_pc_advance wState4 CPU.LDI rfl rfl⟩

/-- Witness for C10 on a fresh 256-byte RAM, writing 9 at address 3. -/
theorem ram_write_read_witness :
    ((0 : ℤ) ≤ 3 ∧ (3 : ℤ) < ((RAM.new 256).size : ℤ) ∧ (4 : ℤ) ≠ 3) ∧
    ((RAM.new 256).write 3 9).read 3 = some 9 ∧
    ((RAM.new 256).write 3 9).read 4 = (RAM.new 256).read 4 :=
  ⟨⟨by decide, by decide, by decide⟩,
   ram_write_read (RAM.new 256) 3 9 4 (by decide) (by decide) (by decide)⟩

end LS8
